import Mathlib

/-!
# Verification of the requirements-elicitation pipeline core

A shallow embedding, in Lean 4, of the components of the
`product-requirements-simulator` repository that the specification's
testable properties talk about:

* `src/src/agents/generator.py` — serial, diversity-preserving persona
  generation (`AgentGenerator.generate_agents`);
* `src/src/pipeline/pipeline_parallel.py` — the hybrid-parallel strategy
  (`_process_single_agent` and the result collection / ordering / status
  logic of `ParallelRequirementsPipeline.run`);
* `src/src/agents/latent_extractor.py` — `LatentNeedExtractor.aggregate_needs`;
* `src/src/utils/json_parser.py` — `safe_parse_json` and its helpers;
* `src/src/utils/analytics.py` — `AnalyticsCollector`;
* `app_fastapi.py` — the job status lifecycle of `run_pipeline_async`.

Python text is modelled as `List Char` where theorems reason about the
structure of strings, and as Lean `String` where text is only carried
around and compared for equality.  The generative backend (`llm_client.run`
and friends) is opaque per the spec and is modelled as an explicit function
argument; fallible backend calls are modelled with `Except`.
-/

/-- Python text, modelled as a list of characters. -/
abbrev Txt := List Char

/-! ## Persona generation (`src/src/agents/generator.py`) -/

namespace Gen

/-- The separator `"\n\n---\n\n"` appended between personas in the context
block (`generator.py` line 90). -/
def sepBlock : Txt := "\n\n---\n\n".toList

/-- The initial context block, `"None yet - this is the first agent."`
(`generator.py` line 76). -/
def initialContext : Txt := "None yet - this is the first agent.".toList

/-- Modelled from the spec: the prompt template file
`src/llm/prompts/agent_generation.txt` is not among the sources (only its
loader `_load_prompt_template` is).  Per the spec, each persona prompt is
built from the template by substituting the design context and the
accumulated context block of all previously generated personas
(`self.prompt_template.format(design_context=..., context_block=...)`,
`generator.py` lines 81–84).  `str.format` on a template containing the two
placeholders once each is plain substitution, so the prompt is
`pre ++ design_context ++ mid ++ context_block ++ suf` for the fixed
template pieces `pre`, `mid`, `suf`. -/
def formatPrompt (pre mid suf design_context context_block : Txt) : Txt :=
  pre ++ design_context ++ mid ++ context_block ++ suf

/-- The loop state of `AgentGenerator.generate_agents` (lines 75–93):
the personas generated so far, the accumulated context block, and — as an
observation trace — the prompt passed to `llm_client.run` on each call,
in call order. -/
structure GenState where
  agents : List Txt
  context_block : Txt
  prompts : List Txt

/-- One iteration of the `for i in range(n_agents)` loop of
`generate_agents` (lines 78–92): format the prompt from the current
context block, call the model, append the persona, and extend the context
block with `"\n\n---\n\n" + agent_text`. -/
def genStep (llm : Txt → Txt) (pre mid suf design : Txt) (s : GenState) : GenState :=
  let prompt := formatPrompt pre mid suf design s.context_block
  let agent_text := llm prompt
  { agents := s.agents ++ [agent_text]
    context_block := s.context_block ++ sepBlock ++ agent_text
    prompts := s.prompts ++ [prompt] }

/-- The loop of `generate_agents` after `k` iterations, starting from the
empty persona list and the initial context block (lines 75–76). -/
def genIter (llm : Txt → Txt) (pre mid suf design : Txt) : Nat → GenState
  | 0 => { agents := [], context_block := initialContext, prompts := [] }
  | k + 1 => genStep llm pre mid suf design (genIter llm pre mid suf design k)

/-- Model of `AgentGenerator.generate_agents(n_agents, design_context)`:
the list of generated personas (line 95). -/
def generate_agents (llm : Txt → Txt) (pre mid suf design : Txt) (n : Nat) : List Txt :=
  (genIter llm pre mid suf design n).agents

/-- The predicate `containsInOrder ps s` holds when `s` contains every string of `ps`,
whole and in the given order, as disjoint infixes from left to right. -/
def containsInOrder : List Txt → Txt → Prop
  | [], _ => True
  | p :: ps, s => ∃ a b, s = a ++ p ++ b ∧ containsInOrder ps b

end Gen

/-! ## Hybrid-parallel pipeline (`src/src/pipeline/pipeline_parallel.py`)
and need aggregation (`src/src/agents/latent_extractor.py`) -/

namespace PPipe

/-- One question/answer pair appended to `qa_pairs`
(`pipeline_parallel.py` lines 156–159). -/
structure QA where
  question : String
  answer : String
deriving Repr, DecidableEq

/-- The per-unit result dict built by `_process_single_agent`
(`pipeline_parallel.py` lines 101–109). -/
structure AgentResult where
  agent_id : Nat
  agent : String
  product : String
  success : Bool
  experience : Option String
  interview : Option (List QA)
  error : Option String
deriving Repr, DecidableEq

/-- The interview loop of `_process_single_agent` (lines 146–169): ask the
questions one by one, strictly in order, accumulating `qa_pairs`; an error
raised by a model call aborts the loop and carries the message out.
`ask agent experience question product` models
`self.interviewer.ask_question(...)`, a fallible backend call.
The rate-limiting semaphore only throttles the call itself and does not
change which calls are made, so it is not modelled. -/
def askLoop (ask : String → String → String → String → Except String String)
    (agent experience product : String) :
    List String → List QA → Except String (List QA)
  | [], acc => .ok acc
  | q :: qs, acc =>
    match ask agent experience q product with
    | .error e => .error e
    | .ok answer => askLoop ask agent experience product qs (acc ++ [⟨q, answer⟩])

/-- Model of `_process_single_agent(agent_id, agent, product)` (lines 80–194):
simulate the experience, then run the interview; any raised error is
caught and captured into the unit's own result as
`success = false` with the error message — it is never re-raised.
`simulate agent product agent_id` models
`self.experience_simulator.simulate_experience(...)`. -/
def process_single_agent
    (simulate : String → String → Nat → Except String String)
    (ask : String → String → String → String → Except String String)
    (questions : List String)
    (agent_id : Nat) (agent product : String) : AgentResult :=
  match simulate agent product agent_id with
  | .error e =>
      { agent_id := agent_id, agent := agent, product := product,
        success := false, experience := none, interview := none, error := some e }
  | .ok experience =>
      match askLoop ask agent experience product questions [] with
      | .error e =>
          { agent_id := agent_id, agent := agent, product := product,
            success := false, experience := some experience, interview := none,
            error := some e }
      | .ok qa_pairs =>
          { agent_id := agent_id, agent := agent, product := product,
            success := true, experience := some experience, interview := some qa_pairs,
            error := none }

/-- Model of `agent_results.sort(key=lambda x: x.get("agent_id", 0))`
(`pipeline_parallel.py` line 326).  Python's `list.sort` is a stable sort
by the key; `List.mergeSort` is stable with the same comparator. -/
def sortResults (rs : List AgentResult) : List AgentResult :=
  rs.mergeSort (fun a b => a.agent_id ≤ b.agent_id)

/-- An entry of `results["experiences"]` (lines 337–342). -/
structure ExperienceRec where
  agent_id : Nat
  agent : String
  product : String
  experience : Option String
deriving Repr, DecidableEq

/-- An entry of `results["interviews"]` (lines 343–349). -/
structure InterviewRec where
  agent_id : Nat
  agent : String
  experience : Option String
  product : String
  interview : Option (List QA)
deriving Repr, DecidableEq

/-- The `for res in agent_results: if res["success"]: experiences.append(...)`
loop (lines 335–342). -/
def buildExperiences (rs : List AgentResult) : List ExperienceRec :=
  (rs.filter (·.success)).map fun r =>
    { agent_id := r.agent_id, agent := r.agent, product := r.product,
      experience := r.experience }

/-- The matching `interviews.append(...)` of the same loop (lines 343–349). -/
def buildInterviews (rs : List AgentResult) : List InterviewRec :=
  (rs.filter (·.success)).map fun r =>
    { agent_id := r.agent_id, agent := r.agent, experience := r.experience,
      product := r.product, interview := r.interview }

/-- One extracted need dict, as consumed by
`LatentNeedExtractor.aggregate_needs` (`latent_extractor.py` lines
164–210).  `aggregate_needs` reads only `need.get("category", "Unknown")`
and `need.get("priority", "Medium")`; `Option` models a possibly-missing
dict key, and `statement` stands for the rest of the need's payload. -/
structure Need where
  category : Option String
  priority : Option String
  statement : String
deriving Repr, DecidableEq

/-- One element of the `extraction_results` list
(`extract_from_interview`'s return value, lines 130–136); `aggregate_needs`
reads only `result.get("needs", [])`. -/
structure ExtractionResult where
  agent_id : Option Nat
  needs : List Need
deriving Repr, DecidableEq

/-- Model of `categories[category].append(need)` preceded by
`if category not in categories: categories[category] = []`
(lines 191–193), on a Python dict modelled as an association list in key
insertion order. -/
def dictAppend (k : String) (nd : Need) :
    List (String × List Need) → List (String × List Need)
  | [] => [(k, [nd])]
  | (k', l) :: rest =>
      if k' = k then (k', l ++ [nd]) :: rest else (k', l) :: dictAppend k nd rest

/-- Dict lookup with `[]` default, used to state facts about the grouped
categories. -/
def lookupD (d : List (String × List Need)) (k : String) : List Need :=
  match d.find? (fun kv => kv.1 = k) with
  | some kv => kv.2
  | none => []

/-- The `priorities` dict, initialised to
`{"High": [], "Medium": [], "Low": []}` (line 185). -/
structure PriorityGroups where
  high : List Need
  medium : List Need
  low : List Need
deriving Repr, DecidableEq

/-- The body of the `for need in all_needs` loop (lines 187–196): place the
need into its category group (key defaulting to `"Unknown"`), and into the
priority group named by `need.get("priority", "Medium")` — but only when
that name is one of the three preexisting keys (`if priority in priorities`,
line 195); any other priority value is placed in no priority group. -/
def aggStep (st : List (String × List Need) × PriorityGroups) (nd : Need) :
    List (String × List Need) × PriorityGroups :=
  let category := nd.category.getD ("Unknown")
  let priority := nd.priority.getD ("Medium")
  let cats := dictAppend category nd st.1
  let pris :=
    if priority = "High" then { st.2 with high := st.2.high ++ [nd] }
    else if priority = "Medium" then { st.2 with medium := st.2.medium ++ [nd] }
    else if priority = "Low" then { st.2 with low := st.2.low ++ [nd] }
    else st.2
  (cats, pris)

/-- The `summary` sub-dict (lines 206–209). -/
structure NeedsSummary where
  by_category : List (String × Nat)
  by_priority : List (String × Nat)
deriving Repr, DecidableEq

/-- The dict returned for `results["aggregated_needs"]`.  The zero-success
branch of the parallel run (lines 395–399) builds a literal dict without
the `total_agents`, `priorities` and `all_needs` keys; `Option` models the
possibly-absent keys. -/
structure AggregatedNeeds where
  total_needs : Nat
  total_agents : Option Nat
  categories : List (String × List Need)
  priorities : Option PriorityGroups
  all_needs : Option (List Need)
  summary : NeedsSummary
deriving Repr, DecidableEq

/-- Model of `LatentNeedExtractor.aggregate_needs(extraction_results)`
(`latent_extractor.py` lines 164–210): flatten all units' need lists,
group by category and by priority, and emit per-group counts. -/
def aggregate_needs (extraction_results : List ExtractionResult) : AggregatedNeeds :=
  let all_needs := extraction_results.flatMap (·.needs)
  let grouped := all_needs.foldl aggStep ([], { high := [], medium := [], low := [] })
  { total_needs := all_needs.length
    total_agents := some extraction_results.length
    categories := grouped.1
    priorities := some grouped.2
    all_needs := some all_needs
    summary :=
      { by_category := grouped.1.map (fun kv => (kv.1, kv.2.length))
        by_priority :=
          [("High", grouped.2.high.length), ("Medium", grouped.2.medium.length),
           ("Low", grouped.2.low.length)] } }

/-- The concatenation of all priority groups of an aggregation result
(empty when the `priorities` key is absent). -/
def prioritiesAll (a : AggregatedNeeds) : List Need :=
  match a.priorities with
  | some pg => pg.high ++ pg.medium ++ pg.low
  | none => []

/-- The literal empty aggregation dict of the zero-success branch
(`pipeline_parallel.py` lines 395–399). -/
def emptyAggregated : AggregatedNeeds :=
  { total_needs := 0
    total_agents := none
    categories := []
    priorities := none
    all_needs := none
    summary := { by_category := [], by_priority := [] } }

/-- The fields of `results` built by the parallel `run` that the claims
talk about (lines 351–354, 380–399, 406). -/
structure RunOutput where
  agent_results : List AgentResult
  failed_agents : List Nat
  experiences : List ExperienceRec
  interviews : List InterviewRec
  need_extractions : List ExtractionResult
  aggregated_needs : AggregatedNeeds
  status : String
deriving Repr, DecidableEq

/-- Stages 2–4 of `ParallelRequirementsPipeline.run` (lines 282–439).
`proc i` is the result of `_process_single_agent` for agent id `i` — a
total function, since `_process_single_agent` catches every exception, so
the `future.result()` re-raise branch (lines 316–323) is unreachable.
`order` is the order in which `as_completed` yields the submitted unit
futures: a permutation of the agent ids `1..n`.  `extract` models the
model-backed `extract_from_interview` applied to one interview by
`extract_from_multiple_interviews`.  Results are collected in completion
order (also the `failed_agents` list), re-sorted by agent id, and the
experience/interview lists are built from the successful units only; need
extraction runs only when at least one interview exists, the zero-success
branch substituting the literal empty aggregation; the terminal status is
`"completed"` exactly when no unit failed (line 406). -/
def run_parallel (proc : Nat → AgentResult)
    (extract : InterviewRec → ExtractionResult)
    (order : List Nat) : RunOutput :=
  let collected := order.map proc
  let failed_agents := order.filter (fun i => !(proc i).success)
  let agent_results := sortResults collected
  let experiences := buildExperiences agent_results
  let interviews := buildInterviews agent_results
  let need_extractions := if interviews.isEmpty then [] else interviews.map extract
  let aggregated_needs :=
    if interviews.isEmpty then emptyAggregated else aggregate_needs need_extractions
  { agent_results := agent_results
    failed_agents := failed_agents
    experiences := experiences
    interviews := interviews
    need_extractions := need_extractions
    aggregated_needs := aggregated_needs
    status := if failed_agents.isEmpty then "completed" else "completed_with_errors" }

/-- The per-unit processing function the parallel run submits to its pool:
`executor.submit(self._process_single_agent, idx, agent, product, ...)`
for `idx, agent in enumerate(agents, 1)` (`pipeline_parallel.py` lines
292–301), with the generated persona list modelled as the map
`agents : Nat → String` from agent id to description. -/
def procOf (simulate : String → String → Nat → Except String String)
    (ask : String → String → String → String → Except String String)
    (questions : List String) (agents : Nat → String) (product : String) :
    Nat → AgentResult :=
  fun i => process_single_agent simulate ask questions i (agents i) product

/-- A unit-result function on which every unit fails. -/
def failProc : Nat → AgentResult := fun j =>
  { agent_id := j, agent := "a", product := "p", success := false,
    experience := none, interview := none, error := some ("boom") }

/-- A unit-result function on which every unit succeeds. -/
def okProc : Nat → AgentResult := fun j =>
  { agent_id := j, agent := "a", product := "p", success := true,
    experience := some ("e"), interview := some [], error := none }

/-- A need-extraction stand-in returning no needs. -/
def noExtract : InterviewRec → ExtractionResult := fun _ =>
  { agent_id := none, needs := [] }

/-- An experience simulation that raises for persona 3 only. -/
def simFail3 : String → String → Nat → Except String String :=
  fun _ _ i => if i = 3 then Except.error ("boom") else Except.ok ("exp")

/-- An interview question call that always succeeds. -/
def askOk : String → String → String → String → Except String String :=
  fun _ _ _ _ => Except.ok ("ans")

/-- A need whose `priority` value is none of `High`/`Medium`/`Low`. -/
def badNeed : Need :=
  { category := some ("Functional"), priority := some ("Critical"),
    statement := "needs critical handling" }

/-- The spec's aggregation example: two unit results with two needs each,
categories Functional, Usability, Functional, Safety. -/
def exampleUnits : List ExtractionResult :=
  [{ agent_id := some 1,
     needs :=
       [{ category := some ("Functional"), priority := some ("High"), statement := "n1" },
        { category := some ("Usability"), priority := some ("Medium"), statement := "n2" }] },
   { agent_id := some 2,
     needs :=
       [{ category := some ("Functional"), priority := some ("Low"), statement := "n3" },
        { category := some ("Safety"), priority := some ("High"), statement := "n4" }] }]

end PPipe

/-! ## Structured-output recovery (`src/src/utils/json_parser.py`)

`json.loads` is the Python standard library, outside this repository; it is
modelled here as a recursive-descent parser `json_loads` for the core JSON
grammar the pipeline exchanges: `null`, booleans, integer numbers, strings
without escape sequences, arrays and objects, with whitespace between
tokens and with the whole input consumed (Python raises `Extra data`
otherwise).  Escape sequences and non-integer numbers are outside the
modelled subset.  The repository's own functions — `safe_parse_json`,
`extract_json_from_markdown`, `extract_json_object`,
`fix_common_json_issues` — are translated below, with each `re` pattern
realised as an explicit leftmost-match scanner. -/

namespace JsonU

/-- Characters that the file's string literals cannot spell directly. -/
def lbrace : Char := Char.ofNat 123

def rbrace : Char := Char.ofNat 125

def lbrack : Char := Char.ofNat 91

def rbrack : Char := Char.ofNat 93

def btick : Char := Char.ofNat 96

def dquote : Char := Char.ofNat 34

def squote : Char := Char.ofNat 39

def bslash : Char := Char.ofNat 92

/-- Whitespace for both `json.loads` and the `\s` regex class
(space, tab, newline, carriage return). -/
def isWsChar (c : Char) : Bool :=
  c = ' ' || c = '\t' || c = '\n' || c = '\r'

def skipWs (s : List Char) : List Char := s.dropWhile isWsChar

/-- Python `str.strip()`. -/
def strip (s : List Char) : List Char :=
  ((s.dropWhile isWsChar).reverse.dropWhile isWsChar).reverse

/-- A JSON value (the core grammar; see the section comment). -/
inductive Json where
  | null
  | bool (b : Bool)
  | num (n : Int)
  | str (s : List Char)
  | arr (xs : List Json)
  | obj (kvs : List (List Char × Json))

def digitsToNat (acc : Nat) : List Char → Nat
  | [] => acc
  | c :: cs => digitsToNat (acc * 10 + (c.toNat - 48)) cs

/-- A JSON string body after the opening quote: plain characters up to the
closing quote; escape sequences are outside the modelled subset. -/
def parseJStr : List Char → Option (List Char × List Char)
  | [] => none
  | c :: rest =>
    if c = dquote then some ([], rest)
    else if c = bslash then none
    else (parseJStr rest).map (fun g => (c :: g.1, g.2))

mutual

/-- One JSON value and the remaining input; `fuel` bounds the recursion
depth (any `fuel` past the input length is enough, since every nested
parse consumes at least one character first). -/
def parseVal : Nat → List Char → Option (Json × List Char)
  | 0, _ => none
  | Nat.succ fuel, s =>
    match skipWs s with
    | 'n' :: 'u' :: 'l' :: 'l' :: rest => some (.null, rest)
    | 't' :: 'r' :: 'u' :: 'e' :: rest => some (.bool true, rest)
    | 'f' :: 'a' :: 'l' :: 's' :: 'e' :: rest => some (.bool false, rest)
    | c :: rest =>
      if c = dquote then
        (parseJStr rest).map (fun g => (.str g.1, g.2))
      else if c = lbrace then parseMembers fuel rest
      else if c = lbrack then parseElems fuel rest
      else if c = '-' then
        match rest with
        | d :: ds =>
          if d.isDigit then
            let digits := ds.takeWhile Char.isDigit
            some (.num (-(digitsToNat 0 (d :: digits) : Int)), ds.drop digits.length)
          else none
        | [] => none
      else if c.isDigit then
        let digits := rest.takeWhile Char.isDigit
        some (.num (digitsToNat 0 (c :: digits) : Int), rest.drop digits.length)
      else none
    | [] => none

/-- Array contents after `[`: either `]` now, or a first element followed
by `parseElemsTail`. -/
def parseElems : Nat → List Char → Option (Json × List Char)
  | 0, _ => none
  | Nat.succ fuel, s =>
    match skipWs s with
    | [] => none
    | c :: rest =>
      if c = rbrack then some (.arr [], rest)
      else
        match parseVal fuel (c :: rest) with
        | none => none
        | some (v, r) =>
          match parseElemsTail fuel r with
          | none => none
          | some (vs, r') => some (.arr (v :: vs), r')

/-- After an array element: `]` ends the array, `,` demands another
element (so a trailing comma fails, as in Python). -/
def parseElemsTail : Nat → List Char → Option (List Json × List Char)
  | 0, _ => none
  | Nat.succ fuel, s =>
    match skipWs s with
    | [] => none
    | c :: rest =>
      if c = rbrack then some ([], rest)
      else if c = ',' then
        match parseVal fuel rest with
        | none => none
        | some (v, r) =>
          match parseElemsTail fuel r with
          | none => none
          | some (vs, r') => some (v :: vs, r')
      else none

/-- Object contents after the opening brace: either a closing brace now,
or a first `"key": value` member followed by `parseMembersTail`. -/
def parseMembers : Nat → List Char → Option (Json × List Char)
  | 0, _ => none
  | Nat.succ fuel, s =>
    match skipWs s with
    | [] => none
    | c :: rest =>
      if c = rbrace then some (.obj [], rest)
      else
        match parseMember fuel (c :: rest) with
        | none => none
        | some (kv, r) =>
          match parseMembersTail fuel r with
          | none => none
          | some (kvs, r') => some (.obj (kv :: kvs), r')

/-- One `"key": value` member. -/
def parseMember : Nat → List Char → Option ((List Char × Json) × List Char)
  | 0, _ => none
  | Nat.succ fuel, s =>
    match s with
    | c :: rest =>
      if c = dquote then
        match parseJStr rest with
        | none => none
        | some (key, r) =>
          match skipWs r with
          | c' :: r' =>
            if c' = ':' then
              match parseVal fuel r' with
              | none => none
              | some (v, r'') => some ((key, v), r'')
            else none
          | [] => none
      else none
    | [] => none

/-- After an object member: a closing brace ends the object, `,` demands
another member (so a trailing comma fails, as in Python). -/
def parseMembersTail : Nat → List Char → Option (List (List Char × Json) × List Char)
  | 0, _ => none
  | Nat.succ fuel, s =>
    match skipWs s with
    | [] => none
    | c :: rest =>
      if c = rbrace then some ([], rest)
      else if c = ',' then
        match skipWs rest with
        | c' :: r =>
          match parseMember fuel (c' :: r) with
          | none => none
          | some (kv, r') =>
            match parseMembersTail fuel r' with
            | none => none
            | some (kvs, r'') => some (kv :: kvs, r'')
        | [] => none
      else none

end

/-- The model of `json.loads`: parse one value and require that only
whitespace remains (Python: `Extra data` otherwise). -/
def json_loads (s : List Char) : Option Json :=
  match parseVal (s.length + 1) s with
  | some (v, rest) => if (skipWs rest).isEmpty then some v else none
  | none => none

/-- Strip a literal from the front of `s`, or fail. -/
def dropLit : List Char → List Char → Option (List Char)
  | [], s => some s
  | _ :: _, [] => none
  | c :: cs, d :: ds => if c = d then dropLit cs ds else none

/-- Leftmost occurrence of `marker` in `s`: the text before it and the text
after it.  This is the semantics of a lazy `(.*?)marker` regex tail. -/
def splitAtFirst (marker : List Char) : List Char → Option (List Char × List Char)
  | [] =>
    match dropLit marker [] with
    | some r => some ([], r)
    | none => none
  | c :: cs =>
    match dropLit marker (c :: cs) with
    | some rest => some ([], rest)
    | none => (splitAtFirst marker cs).map (fun g => (c :: g.1, g.2))

def fenceLit : List Char := [btick, btick, btick]

/-- The regex tail after the opening fence literal.  With `requireNl`
(patterns with `\s*\n(.*?)\n` + fence): greedy `\s*` with backtracking
consumes through the last newline of the whitespace run, then the lazy
group runs to the first `"\n" + fence`.  Without it (patterns with
`\s*(.*?)` + fence): greedy `\s*` consumes the whole whitespace run, then
the lazy group runs to the first fence. -/
def fenceTailMatch (requireNl : Bool) (afterTag : List Char) : Option (List Char) :=
  let ws := afterTag.takeWhile isWsChar
  let rest := afterTag.drop ws.length
  if requireNl then
    if ws.contains '\n' then
      let afterLastNl := (ws.reverse.takeWhile (fun c => ¬ c = '\n')).reverse
      (splitAtFirst ('\n' :: fenceLit) (afterLastNl ++ rest)).map (·.1)
    else none
  else
    (splitAtFirst fenceLit rest).map (·.1)

/-- Model of `re.search` for one fenced pattern: scan start positions left to right,
at each position try the opening literal ``` + tag and then the pattern
tail; the first position where the whole pattern matches wins. -/
def searchFenced (tag : List Char) (requireNl : Bool) : List Char → Option (List Char)
  | [] => none
  | c :: cs =>
    match dropLit (fenceLit ++ tag) (c :: cs) with
    | some afterTag =>
      match fenceTailMatch requireNl afterTag with
      | some g => some g
      | none => searchFenced tag requireNl cs
    | none => searchFenced tag requireNl cs

/-- Model of `extract_json_from_markdown(text)` (`json_parser.py` lines 76–99):
try the four fence patterns in order and return the first match's group,
stripped. -/
def extract_json_from_markdown (s : List Char) : Option (List Char) :=
  match searchFenced ("json".toList) true s with
  | some g => some (strip g)
  | none =>
    match searchFenced [] true s with
    | some g => some (strip g)
    | none =>
      match searchFenced ("json".toList) false s with
      | some g => some (strip g)
      | none => (searchFenced [] false s).map strip

/-- Index of the first occurrence of `c` in `s`. -/
def firstIdxOf (s : List Char) (c : Char) : Option Nat :=
  s.findIdx? (· = c)

/-- Index of the last occurrence of `c` in `s`. -/
def lastIdxOf (s : List Char) (c : Char) : Option Nat :=
  (s.reverse.findIdx? (· = c)).map (fun k => s.length - 1 - k)

/-- The greedy DOTALL regex `open.*close` under `re.search`: the span from
the first opening character to the last closing character, when the latter
comes after the former (no such span exists otherwise, at any start). -/
def spanFromTo (s : List Char) (openC closeC : Char) : Option (List Char) :=
  match firstIdxOf s openC, lastIdxOf s closeC with
  | some i, some j => if i < j then some ((s.drop i).take (j - i + 1)) else none
  | _, _ => none

/-- Model of `extract_json_object(text)` (`json_parser.py` lines 102–122): the first
balanced-looking object span, else the first array span. -/
def extract_json_object (s : List Char) : Option (List Char) :=
  match spanFromTo s lbrace rbrace with
  | some g => some g
  | none => spanFromTo s lbrack rbrack

/-- The `\s*[}\]]` part of the trailing-comma regex: a whitespace run
followed by a closing brace or bracket, returning (run, bracket, rest). -/
def wsThenClose : List Char → Option (List Char × Char × List Char)
  | [] => none
  | c :: rest =>
    if c = rbrace || c = rbrack then some ([], c, rest)
    else if isWsChar c then
      (wsThenClose rest).map (fun g => (c :: g.1, g.2.1, g.2.2))
    else none

/-- Model of `re.sub(r',(\s*[}\]])', r'\1', text)` (`json_parser.py` line 142):
scan left to right; at a comma followed by whitespace and a closing
delimiter, drop the comma, keep the group, and continue after the
delimiter.  `fuel` bounds the recursion (each step consumes at least one
character, so the input length is enough). -/
def fixTrailingCommasAux : Nat → List Char → List Char
  | 0, s => s
  | Nat.succ _, [] => []
  | Nat.succ f, c :: rest =>
    if c = ',' then
      match wsThenClose rest with
      | some (ws, b, tail) => ws ++ b :: fixTrailingCommasAux f tail
      | none => c :: fixTrailingCommasAux f rest
    else c :: fixTrailingCommasAux f rest

def fixTrailingCommas (s : List Char) : List Char :=
  fixTrailingCommasAux s.length s

/-- Model of `fix_common_json_issues(text)` (`json_parser.py` lines 125–149):
`None` on falsy input; otherwise strip, drop trailing commas before
closing delimiters, and — only when the text has single quotes but no
double quote — replace every single quote by a double quote. -/
def fix_common_json_issues (s : List Char) : Option (List Char) :=
  if s.isEmpty then none
  else
    let t := strip s
    let t := fixTrailingCommas t
    let t :=
      if ¬ t.contains dquote ∧ t.contains squote then
        t.map (fun c => if c = squote then dquote else c)
      else t
    some t

/-- The dynamically-typed `text` argument of `safe_parse_json`: a string,
`None`, or any non-string value. -/
inductive PyVal where
  | pstr (s : List Char)
  | pnone
  | pother
deriving Repr, DecidableEq

/-- One fallback stage of `safe_parse_json`: the stage produces a record
only when its extraction matched, the extracted text is truthy
(`if json_text:`), and `json.loads` accepts it. -/
def tryStage (jt : Option (List Char)) : Option Json :=
  match jt with
  | some t => if t.isEmpty then none else json_loads t
  | none => none

/-- Model of `safe_parse_json(text, default)` (`json_parser.py` lines 17–73):
return `default` on empty/`None`/non-string input; otherwise try, in
order: a direct parse, the markdown-extracted block, the first object/array
span, and the repaired text — the repairs being applied to the original
`text`, not to any extracted block (line 63); if every attempt fails,
return `default`. -/
def safe_parse_json (text : PyVal) (default : Option Json) : Option Json :=
  match text with
  | .pnone => default
  | .pother => default
  | .pstr s =>
    if s.isEmpty then default
    else
      match json_loads s with
      | some v => some v
      | none =>
        match tryStage (extract_json_from_markdown s) with
        | some v => some v
        | none =>
          match tryStage (extract_json_object s) with
          | some v => some v
          | none =>
            match tryStage (fix_common_json_issues s) with
            | some v => some v
            | none => default

end JsonU

/-! ## Metrics (`src/src/utils/analytics.py`)

`AnalyticsCollector` keeps an append-only log of per-call metrics plus
stage and per-agent rollups; `get_summary` recomputes every total from the
log.  Python floats are modelled as rationals; the float `round(x, k)`
calls and the cosmetic human-readable message strings and wall-clock
timestamp strings of the activity log are not modelled (none of them feed
back into any computation); the events themselves and all counted data
are. -/

namespace Metrics

/-- The keyword arguments of `track_api_call` (`analytics.py` lines 25–38),
with their Python defaults made explicit at the call-site model. -/
structure CallArgs where
  call_id : String
  stage : String
  agent_id : Option String
  start_time : Option ℚ
  end_time : Option ℚ
  input_tokens : Nat
  output_tokens : Nat
  model : String
  status : String
  error : Option String
  retry_count : Nat
deriving Repr, DecidableEq

/-- One entry of the append-only `self.api_calls` log (lines 46–60). -/
structure CallData where
  call_id : String
  stage : String
  agent_id : Option String
  duration : ℚ
  input_tokens : Nat
  output_tokens : Nat
  total_tokens : Nat
  model : String
  cost : ℚ
  status : String
  error : Option String
  retry_count : Nat
deriving DecidableEq

/-- One per-stage entry of an agent's rollup (lines 98–109). -/
structure AgentStageTally where
  duration : ℚ
  tokens : Nat
  cost : ℚ
  calls : Nat
deriving DecidableEq

/-- One agent's rollup in `self.agent_metrics` (lines 89–112). -/
structure AgentTally where
  stages : List (String × AgentStageTally)
  total_duration : ℚ
  total_cost : ℚ
  total_tokens : Nat
deriving DecidableEq

/-- One entry of `self.stage_metrics` (lines 125–131). -/
structure StageData where
  start_time : ℚ
  end_time : ℚ
  duration : ℚ
  items_processed : Nat
  status : String
deriving DecidableEq

/-- One event of `self.activity_log` (lines 146–151); the human-readable
message and wall-clock timestamp strings are not modelled. -/
structure ActivityEvent where
  etype : String
  agent_id : Option String
deriving DecidableEq

/-- The collector state (lines 13–18). -/
structure Collector where
  api_calls : List CallData
  stage_metrics : List (String × StageData)
  activity_log : List ActivityEvent
  agent_metrics : List (String × AgentTally)
deriving DecidableEq

def initCollector : Collector :=
  { api_calls := [], stage_metrics := [], activity_log := [], agent_metrics := [] }

/-- Substring containment, for the `if key in model_lower` check of
`_calculate_cost` (line 179). -/
def isSubstrOf (pat s : List Char) : Bool :=
  (JsonU.splitAtFirst pat s).isSome

/-- The static price table of `_calculate_cost` (lines 164–170), per 1K
tokens, in dict insertion order. -/
def pricing : List (String × ℚ × ℚ) :=
  [("gpt-4", 3/100, 6/100),
   ("gpt-4-turbo", 1/100, 3/100),
   ("gpt-3.5-turbo", 5/10000, 15/10000),
   ("gemini-pro", 25/100000, 5/10000),
   ("gemini-1.5-pro", 125/100000, 375/100000)]

/-- The default rate for unknown model identifiers (line 173). -/
def default_pricing : ℚ × ℚ := (1/100, 3/100)

/-- Model of `_calculate_cost(model, input_tokens, output_tokens)` (lines 161–186):
the first price-table key that is a substring of the lowercased model name
wins ("first success" over dict insertion order), with the default rate as
fallback. -/
def calculate_cost (model : String) (input_tokens output_tokens : Nat) : ℚ :=
  let model_lower := model.toList.map Char.toLower
  let mp :=
    match pricing.find? (fun kv => isSubstrOf kv.1.toList model_lower) with
    | some kv => kv.2
    | none => default_pricing
  (input_tokens : ℚ) / 1000 * mp.1 + (output_tokens : ℚ) / 1000 * mp.2

/-- Association-list update for the per-agent and per-stage rollup dicts,
adding new keys at the end (Python dict insertion order). -/
def updateAssoc {α : Type} (k : String) (dflt : α) (f : α → α) :
    List (String × α) → List (String × α)
  | [] => [(k, f dflt)]
  | (k', v) :: rest =>
      if k' = k then (k', f v) :: rest else (k', v) :: updateAssoc k dflt f rest

/-- Model of `track_api_call` (lines 25–112): compute duration and cost, append one
entry to the api-call log, log an activity event, and — when an agent id
was supplied — fold the call into that agent's rollup.  Python truthiness:
`end_time - start_time if start_time and end_time else 0` yields 0 also
when either timestamp is 0. -/
def track_api_call (c : Collector) (a : CallArgs) : Collector :=
  let duration : ℚ :=
    match a.start_time, a.end_time with
    | some st, some et => if st ≠ 0 ∧ et ≠ 0 then et - st else 0
    | _, _ => 0
  let total_tokens := a.input_tokens + a.output_tokens
  let cost := calculate_cost a.model a.input_tokens a.output_tokens
  let call_data : CallData :=
    { call_id := a.call_id, stage := a.stage, agent_id := a.agent_id,
      duration := duration, input_tokens := a.input_tokens,
      output_tokens := a.output_tokens, total_tokens := total_tokens,
      model := a.model, cost := cost, status := a.status, error := a.error,
      retry_count := a.retry_count }
  let log :=
    if a.status = "success" then c.activity_log ++ [⟨"api_success", a.agent_id⟩]
    else if a.status = "error" then c.activity_log ++ [⟨"api_error", a.agent_id⟩]
    else c.activity_log
  let agent_metrics :=
    match a.agent_id with
    | none => c.agent_metrics
    | some aid =>
        updateAssoc aid
          { stages := [], total_duration := 0, total_cost := 0, total_tokens := 0 }
          (fun am =>
            { stages :=
                updateAssoc a.stage
                  { duration := 0, tokens := 0, cost := 0, calls := 0 }
                  (fun st =>
                    { duration := st.duration + duration,
                      tokens := st.tokens + total_tokens,
                      cost := st.cost + cost,
                      calls := st.calls + 1 })
                  am.stages
              total_duration := am.total_duration + duration
              total_cost := am.total_cost + cost
              total_tokens := am.total_tokens + total_tokens })
          c.agent_metrics
  { api_calls := c.api_calls ++ [call_data]
    stage_metrics := c.stage_metrics
    activity_log := log
    agent_metrics := agent_metrics }

/-- Model of `track_stage(stage_name, start, end, items, status)` (lines 114–137). -/
def track_stage (c : Collector) (stage_name : String) (start_t end_t : ℚ)
    (items_processed : Nat) (status : String) : Collector :=
  { c with
    stage_metrics :=
      updateAssoc stage_name
        { start_time := 0, end_time := 0, duration := 0,
          items_processed := 0, status := "" }
        (fun _ =>
          { start_time := start_t, end_time := end_t,
            duration := end_t - start_t, items_processed := items_processed,
            status := status })
        c.stage_metrics
    activity_log := c.activity_log ++ [⟨"stage_complete", none⟩] }

/-- The `overview` sub-dict of `get_summary` (lines 243–253). -/
structure Overview where
  total_duration : ℚ
  total_api_calls : Nat
  successful_calls : Nat
  failed_calls : Nat
  total_tokens : Nat
  total_cost : ℚ
  avg_latency : ℚ
  tokens_per_second : ℚ
deriving DecidableEq

/-- One stage's entry of `stage_breakdown` (lines 211–220). -/
structure StageBreakdown where
  duration : ℚ
  items : Nat
  api_calls : Nat
  tokens : Nat
  cost : ℚ
deriving DecidableEq

/-- One entry of `agent_performance` (lines 223–238). -/
structure AgentPerf where
  agent_id : String
  total_duration : ℚ
  total_cost : ℚ
  total_tokens : Nat
deriving DecidableEq

/-- Model of `get_summary()` (lines 188–264), recomputed fresh from the log.
`now` models the `time.time()` read and `tracking_start` the
`self.start_time` set by `start_tracking`.  Python's `max`/`min` with a
key keep the first extremal element; `agent_performance[-1]` /
`agent_performance[0]` are the last/first after the sort by duration. -/
structure Summary where
  overview : Overview
  stage_breakdown : List (String × StageBreakdown)
  agent_performance : List AgentPerf
  api_calls : List CallData
  activity_log : List ActivityEvent
  slowest_call : Option CallData
  fastest_call : Option CallData
  most_expensive_agent : Option AgentPerf
  fastest_agent : Option AgentPerf
deriving DecidableEq

def get_summary (c : Collector) (now tracking_start : ℚ) : Summary :=
  let total_duration := now - tracking_start
  let total_calls := c.api_calls.length
  let successful_calls := (c.api_calls.filter (fun d => d.status = "success")).length
  let failed_calls := (c.api_calls.filter (fun d => d.status = "error")).length
  let total_tokens := (c.api_calls.map (·.total_tokens)).sum
  let total_cost := (c.api_calls.map (·.cost)).sum
  let total_api_duration := (c.api_calls.map (·.duration)).sum
  let avg_latency := if total_calls > 0 then total_api_duration / total_calls else 0
  let slowest_call :=
    match c.api_calls with
    | [] => none
    | d :: ds => some (ds.foldl (fun best x => if x.duration > best.duration then x else best) d)
  let fastest_call :=
    match c.api_calls with
    | [] => none
    | d :: ds => some (ds.foldl (fun best x => if x.duration < best.duration then x else best) d)
  let stage_breakdown :=
    c.stage_metrics.map fun kv =>
      let stage_calls := c.api_calls.filter (fun d => d.stage = kv.1)
      (kv.1,
       { duration := kv.2.duration, items := kv.2.items_processed,
         api_calls := stage_calls.length,
         tokens := (stage_calls.map (·.total_tokens)).sum,
         cost := (stage_calls.map (·.cost)).sum : StageBreakdown })
  let agent_performance :=
    (c.agent_metrics.map fun kv =>
      { agent_id := kv.1, total_duration := kv.2.total_duration,
        total_cost := kv.2.total_cost, total_tokens := kv.2.total_tokens : AgentPerf
        }).mergeSort (fun x y => x.total_duration ≤ y.total_duration)
  { overview :=
      { total_duration := total_duration, total_api_calls := total_calls,
        successful_calls := successful_calls, failed_calls := failed_calls,
        total_tokens := total_tokens, total_cost := total_cost,
        avg_latency := avg_latency,
        tokens_per_second :=
          if total_duration > 0 then (total_tokens : ℚ) / total_duration else 0 }
    stage_breakdown := stage_breakdown
    agent_performance := agent_performance
    api_calls := c.api_calls
    activity_log := c.activity_log
    slowest_call := slowest_call
    fastest_call := fastest_call
    most_expensive_agent := agent_performance.getLast?
    fastest_agent := agent_performance.head? }

end Metrics

/-! ## Job lifecycle (`app_fastapi.py`) -/

namespace AppApi

/-- The sequence of values assigned to `jobs[job_id]["status"]` over a
job's lifetime, for the code path of the claims:
`analyze` creates the job with `"queued"` (`app_fastapi.py` line 514);
`run_pipeline_async` then sets `"processing"` as the first statement of
its `try` block (line 155) — before `load_config()`, before
`load_interview_questions()` and before `create_llm_client(...)`
(lines 163–170), so before any configuration error can be raised; a raised
error is caught by the single `except` (lines 460–463), which sets
`"failed"`; otherwise the pipeline's terminal status is stored
(`results["metadata"].get("status", "completed")` in parallel mode,
line 273, `"completed"` in sequential mode, line 454).
`clientInit` models configuration loading plus backend-client creation —
the steps whose missing-credentials failure the spec calls a
ConfigurationError; `pipelineOutcome` models the rest of the run. -/
def job_status_trace (clientInit : Except String Unit)
    (pipelineOutcome : Except String String) : List String :=
  "queued" :: "processing" ::
    (match clientInit with
     | .error _ => ["failed"]
     | .ok _ =>
       match pipelineOutcome with
       | .error _ => ["failed"]
       | .ok st => [st])

/-- The job's final `status` and `error` fields for the same code path
(lines 273/454 and 460–463). -/
def job_final (clientInit : Except String Unit)
    (pipelineOutcome : Except String String) : String × Option String :=
  match clientInit with
  | .error e => ("failed", some e)
  | .ok _ =>
    match pipelineOutcome with
    | .error e => ("failed", some e)
    | .ok st => (st, none)

end AppApi

/-! ## Concrete inputs used by the closed theorems -/

namespace JsonU

/-- The record `{"a": 1}` used by the recovery claims. -/
def recA : Json := Json.obj [("a".toList, Json.num 1)]

/-- Clean text of `recA`. -/
def cleanA : List Char := "\x7b\"a\": 1\x7d".toList

/-- The text of `recA` with one trailing separator before the closing delimiter,
wrapped in a fenced code block with a language tag. -/
def fencedTrailingA : List Char := "```json\n\x7b\"a\": 1,\x7d\n```".toList

end JsonU

/-! # Theorems -/

/-- Claim C10 — `safe_parse_json` is total at its public interface: for every
input — the empty string, `None`, a non-string value, or any string — it
returns either a parsed record or the supplied default, and empty or
non-string input returns the default (`json_parser.py` lines 17–73). -/
theorem C10_safe_parse_total (d : Option JsonU.Json) (s : List Char) :
    JsonU.safe_parse_json .pnone d = d ∧
    JsonU.safe_parse_json .pother d = d ∧
    JsonU.safe_parse_json (.pstr []) d = d ∧
    (JsonU.safe_parse_json (.pstr s) d = d ∨
      ∃ v, JsonU.safe_parse_json (.pstr s) d = some v) := by
  refine ⟨rfl, rfl, rfl, ?_⟩
  simp only [JsonU.safe_parse_json]
  split
  · exact Or.inl rfl
  · split
    · rename_i v _
      exact Or.inr ⟨v, rfl⟩
    · split
      · rename_i v _
        exact Or.inr ⟨v, rfl⟩
      · split
        · rename_i v _
          exact Or.inr ⟨v, rfl⟩
        · split
          · rename_i v _
            exact Or.inr ⟨v, rfl⟩
          · exact Or.inl rfl

/-- Claim C7 — recovery is idempotent on already-valid input: whenever the
text parses directly (`json.loads` accepts it with no wrapper stripping
and no repair), `safe_parse_json` returns exactly that direct parse
(`json_parser.py` lines 40–43). -/
theorem C7_recovery_idempotent (s : List Char) (v : JsonU.Json)
    (d : Option JsonU.Json) (h : JsonU.json_loads s = some v) :
    JsonU.safe_parse_json (.pstr s) d = some v := by
  have hne : s.isEmpty = false := by
    cases s with
    | nil => exact absurd h (by simp [JsonU.json_loads, JsonU.parseVal, JsonU.skipWs])
    | cons c cs => rfl
  simp [JsonU.safe_parse_json, hne, h]

theorem C7_recovery_idempotent_witness :
    JsonU.json_loads JsonU.cleanA = some JsonU.recA ∧
    JsonU.safe_parse_json (.pstr JsonU.cleanA) none = some JsonU.recA :=
  ⟨rfl, C7_recovery_idempotent JsonU.cleanA JsonU.recA none rfl⟩

/-- Claim C6 — the code does not satisfy the claimed recovery robustness:
for the record `{"a": 1}`, the clean text parses (and `safe_parse_json`
returns it), and the fenced extraction does locate the comma-laden block,
and the repair pass does delete the trailing comma — but the repair is
applied to the raw fenced text (`json_parser.py` line 63), whose fences
`json.loads` still rejects, so `safe_parse_json` on the fenced text with
one trailing separator returns the default instead of the record. -/
theorem C6_fenced_trailing_comma_not_recovered :
    JsonU.json_loads JsonU.cleanA = some JsonU.recA ∧
    JsonU.safe_parse_json (.pstr JsonU.cleanA) none = some JsonU.recA ∧
    JsonU.extract_json_from_markdown JsonU.fencedTrailingA
      = some (("\x7b\"a\": 1,\x7d").toList) ∧
    JsonU.fix_common_json_issues JsonU.fencedTrailingA
      = some (("```json\n\x7b\"a\": 1\x7d\n```").toList) ∧
    JsonU.safe_parse_json (.pstr JsonU.fencedTrailingA) none = none :=
  ⟨rfl, rfl, rfl, rfl, rfl⟩

/-- Claim C8, counterexample — a configuration error raised while loading
configuration or creating the backend client does *not* leave the job in
`Queued`: `run_pipeline_async` stores `"processing"` before it loads any
configuration (`app_fastapi.py` line 155 vs. lines 163–170), so the status
trace on such a failure is `queued → processing → failed` and does take
the value `"processing"`, contradicting the claim. -/
theorem C8_config_error_counterexample :
    AppApi.job_status_trace (Except.error ("Missing API key")) (Except.ok ("completed"))
      = ["queued", "processing", "failed"] ∧
    "processing" ∈
      AppApi.job_status_trace (Except.error ("Missing API key")) (Except.ok ("completed")) :=
  ⟨rfl, by simp [AppApi.job_status_trace]⟩

/-- Claim C8, amended — a configuration error at job start is fatal: whatever
the rest of the run would have produced, the job's status trace is exactly
`queued → processing → failed` (it reaches `Processing` but no later
stage, and ends `Failed`, never a completed status), and the final record
carries `"failed"` with the error message. -/
theorem C8_config_error_amended (e : String) (po : Except String String) :
    AppApi.job_status_trace (Except.error e) po = ["queued", "processing", "failed"] ∧
    AppApi.job_final (Except.error e) po = ("failed", some e) :=
  ⟨rfl, rfl⟩

/-- Each `track_api_call` call appends exactly one entry to the api-call log, on
every branch. -/
theorem track_api_call_length (c : Metrics.Collector) (a : Metrics.CallArgs) :
    (Metrics.track_api_call c a).api_calls.length = c.api_calls.length + 1 := by
  simp [Metrics.track_api_call]

/-- Folding any sequence of recorded calls grows the log by exactly that
many entries. -/
theorem foldl_track_api_call_length (l : List Metrics.CallArgs) :
    ∀ c : Metrics.Collector,
      (l.foldl Metrics.track_api_call c).api_calls.length
        = c.api_calls.length + l.length := by
  induction l with
  | nil => intro c; simp
  | cons a t ih =>
      intro c
      simp only [List.foldl_cons, ih, track_api_call_length, List.length_cons]
      omega

/-- Claim C9 — metrics non-corruption: after `N` `track_api_call`
invocations on a fresh collector, each tagged with a distinct unit id,
`get_summary` reports a total call count equal to `N` — no recorded call
is lost or double-counted (`analytics.py` lines 25–62 and 188–198). -/
theorem C9_metrics_total_calls (args : List Metrics.CallArgs) (now tracking_start : ℚ)
    (hdistinct : (args.map (·.agent_id)).Nodup) :
    (Metrics.get_summary (args.foldl Metrics.track_api_call Metrics.initCollector)
        now tracking_start).overview.total_api_calls = args.length := by
  have h := foldl_track_api_call_length args Metrics.initCollector
  simpa [Metrics.get_summary, Metrics.initCollector] using h

theorem C9_metrics_total_calls_witness :
    ([{ call_id := "c1", stage := "experience", agent_id := some ("1"),
        start_time := none, end_time := none, input_tokens := 10,
        output_tokens := 5, model := "gemini-1.5-flash", status := "success",
        error := none, retry_count := 0 },
      { call_id := "c2", stage := "interview", agent_id := some ("2"),
        start_time := none, end_time := none, input_tokens := 7,
        output_tokens := 3, model := "gemini-1.5-flash", status := "success",
        error := none, retry_count := 0 }].map
          (Metrics.CallArgs.agent_id)).Nodup ∧
    (Metrics.get_summary
        ([{ call_id := "c1", stage := "experience", agent_id := some ("1"),
            start_time := none, end_time := none, input_tokens := 10,
            output_tokens := 5, model := "gemini-1.5-flash", status := "success",
            error := none, retry_count := 0 },
          { call_id := "c2", stage := "interview", agent_id := some ("2"),
            start_time := none, end_time := none, input_tokens := 7,
            output_tokens := 3, model := "gemini-1.5-flash", status := "success",
            error := none, retry_count := 0 }].foldl
            Metrics.track_api_call Metrics.initCollector) 0 0).overview.total_api_calls
      = 2 :=
  ⟨by decide, C9_metrics_total_calls _ 0 0 (by decide)⟩

/-- Claim C4 — zero-success completion in the parallel strategy: when every
unit fails, the run still completes — need extraction is skipped, the
result carries the literal empty need data (`total_needs == 0`, empty
category and priority summaries), and the terminal status is
`completed_with_errors`, never an exception or a failed status
(`pipeline_parallel.py` lines 368–408). -/
theorem C4_zero_success_completes (proc : Nat → PPipe.AgentResult)
    (extract : PPipe.InterviewRec → PPipe.ExtractionResult) (order : List Nat)
    (hfail : ∀ i ∈ order, (proc i).success = false) (hne : order ≠ []) :
    (PPipe.run_parallel proc extract order).interviews = [] ∧
    (PPipe.run_parallel proc extract order).need_extractions = [] ∧
    (PPipe.run_parallel proc extract order).aggregated_needs = PPipe.emptyAggregated ∧
    (PPipe.run_parallel proc extract order).aggregated_needs.total_needs = 0 ∧
    (PPipe.run_parallel proc extract order).aggregated_needs.categories = [] ∧
    (PPipe.run_parallel proc extract order).aggregated_needs.summary.by_category = [] ∧
    (PPipe.run_parallel proc extract order).aggregated_needs.summary.by_priority = [] ∧
    (PPipe.run_parallel proc extract order).status = "completed_with_errors" := by
  have hfilter : (PPipe.sortResults (order.map proc)).filter (·.success) = [] := by
    rw [List.filter_eq_nil_iff]
    intro a ha
    have ha' : a ∈ order.map proc :=
      (List.mergeSort_perm (order.map proc) _).mem_iff.mp ha
    obtain ⟨i, hi, rfl⟩ := List.mem_map.mp ha'
    simp [hfail i hi]
  have hfailed : order.filter (fun i => !(proc i).success) = order :=
    List.filter_eq_self.mpr (by intro i hi; simp [hfail i hi])
  have hordne : order.isEmpty = false := by
    cases order with
    | nil => exact absurd rfl hne
    | cons a t => rfl
  have hint : PPipe.buildInterviews (PPipe.sortResults (order.map proc)) = [] := by
    simp [PPipe.buildInterviews, hfilter]
  have hrun : PPipe.run_parallel proc extract order =
      { agent_results := PPipe.sortResults (order.map proc),
        failed_agents := order,
        experiences := PPipe.buildExperiences (PPipe.sortResults (order.map proc)),
        interviews := [],
        need_extractions := [],
        aggregated_needs := PPipe.emptyAggregated,
        status := "completed_with_errors" } := by
    simp only [PPipe.run_parallel]
    rw [hfailed, hint]
    simp [hordne]
  rw [hrun]
  exact ⟨rfl, rfl, rfl, rfl, rfl, rfl, rfl, rfl⟩

theorem C4_zero_success_completes_witness :
    (∀ i ∈ [1, 2], (PPipe.failProc i).success = false) ∧
    ([1, 2] : List Nat) ≠ [] ∧
    (PPipe.run_parallel PPipe.failProc PPipe.noExtract [1, 2]).status
      = "completed_with_errors" :=
  ⟨by decide, by decide,
    (C4_zero_success_completes PPipe.failProc PPipe.noExtract [1, 2]
      (by decide) (by decide)).2.2.2.2.2.2.2⟩

/-- Claim C5, counterexample — aggregation does *not* place every need into a
priority group: a need whose `priority` value is present but not one of
`High`/`Medium`/`Low` (here `"Critical"`) is dropped by the
`if priority in priorities` guard (`latent_extractor.py` line 195), so it
lands in its category group but in no priority group, and the priority
summary counts 0 of the 1 total need. -/
theorem C5_aggregation_counterexample :
    (PPipe.aggregate_needs [{ agent_id := some 1, needs := [PPipe.badNeed] }]).total_needs
        = 1 ∧
    (PPipe.aggregate_needs [{ agent_id := some 1, needs := [PPipe.badNeed] }]).priorities
        = some { high := [], medium := [], low := [] } ∧
    PPipe.badNeed ∉
      PPipe.prioritiesAll
        (PPipe.aggregate_needs [{ agent_id := some 1, needs := [PPipe.badNeed] }]) ∧
    PPipe.lookupD
        (PPipe.aggregate_needs [{ agent_id := some 1, needs := [PPipe.badNeed] }]).categories
        "Functional"
      = [PPipe.badNeed] := by
  decide

/-- Unfolding of `lookupD` on a cons cell. -/
theorem lookupD_cons (k c : String) (l : List PPipe.Need)
    (rest : List (String × List PPipe.Need)) :
    PPipe.lookupD ((k, l) :: rest) c = if k = c then l else PPipe.lookupD rest c := by
  by_cases h : k = c
  · simp [PPipe.lookupD, List.find?, h]
  · simp [PPipe.lookupD, List.find?, h]

/-- The update `dictAppend` appends the need to exactly the addressed key's group. -/
theorem lookupD_dictAppend (k : String) (nd : PPipe.Need) :
    ∀ (d : List (String × List PPipe.Need)) (c : String),
      PPipe.lookupD (PPipe.dictAppend k nd d) c
        = PPipe.lookupD d c ++ (if c = k then [nd] else []) := by
  intro d
  induction d with
  | nil =>
      intro c
      rw [show PPipe.dictAppend k nd [] = [(k, [nd])] from rfl, lookupD_cons]
      by_cases h : c = k
      · subst h; simp [PPipe.lookupD]
      · rw [if_neg (Ne.symm h), if_neg h]
        simp [PPipe.lookupD]
  | cons kv rest ih =>
      intro c
      obtain ⟨k', l⟩ := kv
      by_cases hk : k' = k
      · subst hk
        by_cases hc : k' = c
        · subst hc
          simp [PPipe.dictAppend, lookupD_cons]
        · rw [show PPipe.dictAppend k' nd ((k', l) :: rest)
              = (k', l ++ [nd]) :: rest from by simp [PPipe.dictAppend],
            lookupD_cons, lookupD_cons, if_neg hc, if_neg hc,
            if_neg (fun hck : c = k' => hc hck.symm)]
          simp
      · by_cases hc : k' = c
        · subst hc
          rw [show PPipe.dictAppend k nd ((k', l) :: rest)
              = (k', l) :: PPipe.dictAppend k nd rest from by
                simp [PPipe.dictAppend, hk],
            lookupD_cons, lookupD_cons, if_pos rfl, if_pos rfl, if_neg hk]
          simp
        · rw [show PPipe.dictAppend k nd ((k', l) :: rest)
              = (k', l) :: PPipe.dictAppend k nd rest from by
                simp [PPipe.dictAppend, hk],
            lookupD_cons, lookupD_cons, if_neg hc, if_neg hc, ih]

/-- Category groups after folding `aggStep`: each key's group collects, in
encounter order, exactly the needs whose (defaulted) category is that key. -/
theorem aggFold_categories (l : List PPipe.Need) :
    ∀ (cats : List (String × List PPipe.Need)) (pg : PPipe.PriorityGroups) (c : String),
      PPipe.lookupD (l.foldl PPipe.aggStep (cats, pg)).1 c
        = PPipe.lookupD cats c
            ++ l.filter (fun nd => nd.category.getD ("Unknown") = c) := by
  induction l with
  | nil => intro cats pg c; simp
  | cons nd t ih =>
      intro cats pg c
      rw [List.foldl_cons]
      have hstep : PPipe.aggStep (cats, pg) nd
          = (PPipe.dictAppend (nd.category.getD ("Unknown")) nd cats,
             (PPipe.aggStep (cats, pg) nd).2) := by
        simp [PPipe.aggStep]
      rw [hstep, ih, lookupD_dictAppend]
      by_cases h : nd.category.getD ("Unknown") = c
      · subst h
        simp [List.filter_cons]
      · rw [if_neg (Ne.symm h)]
        simp [List.filter_cons, h]

/-- Structure eta for `PriorityGroups`. -/
theorem groups_eta (pg : PPipe.PriorityGroups) :
    pg = { high := pg.high, medium := pg.medium, low := pg.low } := rfl

/-- The `high` group after folding `aggStep`. -/
theorem aggFold_high (l : List PPipe.Need) :
    ∀ (cats : List (String × List PPipe.Need)) (pg : PPipe.PriorityGroups),
      (l.foldl PPipe.aggStep (cats, pg)).2.high
        = pg.high ++ l.filter (fun nd => nd.priority.getD ("Medium") = "High") := by
  induction l with
  | nil => intro cats pg; simp
  | cons nd t ih =>
      intro cats pg
      rw [List.foldl_cons, ih]
      by_cases h : nd.priority.getD ("Medium") = "High"
      · simp [PPipe.aggStep, h, List.filter_cons]
      · simp only [PPipe.aggStep, List.filter_cons, h]
        split_ifs <;> simp_all

/-- The `medium` group after folding `aggStep`. -/
theorem aggFold_medium (l : List PPipe.Need) :
    ∀ (cats : List (String × List PPipe.Need)) (pg : PPipe.PriorityGroups),
      (l.foldl PPipe.aggStep (cats, pg)).2.medium
        = pg.medium ++ l.filter (fun nd => nd.priority.getD ("Medium") = "Medium") := by
  induction l with
  | nil => intro cats pg; simp
  | cons nd t ih =>
      intro cats pg
      rw [List.foldl_cons, ih]
      by_cases h : nd.priority.getD ("Medium") = "Medium"
      · simp [PPipe.aggStep, h, List.filter_cons]
      · simp only [PPipe.aggStep, List.filter_cons, h]
        split_ifs <;> simp_all

/-- The `low` group after folding `aggStep`. -/
theorem aggFold_low (l : List PPipe.Need) :
    ∀ (cats : List (String × List PPipe.Need)) (pg : PPipe.PriorityGroups),
      (l.foldl PPipe.aggStep (cats, pg)).2.low
        = pg.low ++ l.filter (fun nd => nd.priority.getD ("Medium") = "Low") := by
  induction l with
  | nil => intro cats pg; simp
  | cons nd t ih =>
      intro cats pg
      rw [List.foldl_cons, ih]
      by_cases h : nd.priority.getD ("Medium") = "Low"
      · simp [PPipe.aggStep, h, List.filter_cons]
      · simp only [PPipe.aggStep, List.filter_cons, h]
        split_ifs <;> simp_all

/-- Claim C5, amended — aggregation flattens all units' need lists
(`total_needs` is the sum of the per-unit counts) and places every need
into the category group named by `category` (defaulting a *missing*
category to `"Unknown"`); a need with a *missing* priority defaults to
`"Medium"` and needs whose (defaulted) priority is `High`/`Medium`/`Low`
go to that priority group, while a need with any other priority value goes
to no priority group; the emitted per-group counts equal the group sizes.
In particular, for 2 units with 2 and 2 needs of categories Functional,
Usability, Functional, Safety, `total_needs = 4` and the `"Functional"`
group has length 2. -/
theorem C5_aggregation_amended :
    (∀ ers : List PPipe.ExtractionResult,
      (PPipe.aggregate_needs ers).total_needs
          = (ers.map (fun r => r.needs.length)).sum ∧
      (PPipe.aggregate_needs ers).all_needs = some (ers.flatMap (·.needs)) ∧
      (∀ c, PPipe.lookupD (PPipe.aggregate_needs ers).categories c
          = (ers.flatMap (·.needs)).filter
              (fun nd => nd.category.getD ("Unknown") = c)) ∧
      (PPipe.aggregate_needs ers).priorities = some
        { high := (ers.flatMap (·.needs)).filter
            (fun nd => nd.priority.getD ("Medium") = "High"),
          medium := (ers.flatMap (·.needs)).filter
            (fun nd => nd.priority.getD ("Medium") = "Medium"),
          low := (ers.flatMap (·.needs)).filter
            (fun nd => nd.priority.getD ("Medium") = "Low") } ∧
      (PPipe.aggregate_needs ers).summary.by_category
          = (PPipe.aggregate_needs ers).categories.map (fun kv => (kv.1, kv.2.length)) ∧
      (PPipe.aggregate_needs ers).summary.by_priority
          = [("High", ((ers.flatMap (·.needs)).filter
                (fun nd => nd.priority.getD ("Medium") = "High")).length),
             ("Medium", ((ers.flatMap (·.needs)).filter
                (fun nd => nd.priority.getD ("Medium") = "Medium")).length),
             ("Low", ((ers.flatMap (·.needs)).filter
                (fun nd => nd.priority.getD ("Medium") = "Low")).length)]) ∧
    (PPipe.aggregate_needs PPipe.exampleUnits).total_needs = 4 ∧
    (PPipe.lookupD (PPipe.aggregate_needs PPipe.exampleUnits).categories
        "Functional").length = 2 := by
  refine ⟨?_, by decide, by decide⟩
  intro ers
  have hhigh := aggFold_high (ers.flatMap (·.needs)) []
    { high := [], medium := [], low := [] }
  have hmed := aggFold_medium (ers.flatMap (·.needs)) []
    { high := [], medium := [], low := [] }
  have hlow := aggFold_low (ers.flatMap (·.needs)) []
    { high := [], medium := [], low := [] }
  refine ⟨?_, rfl, ?_, ?_, rfl, ?_⟩
  · simp [PPipe.aggregate_needs, List.length_flatMap, Function.comp_def]
  · intro c
    have := aggFold_categories (ers.flatMap (·.needs)) []
      { high := [], medium := [], low := [] } c
    simpa [PPipe.aggregate_needs, PPipe.lookupD] using this
  · simp only [PPipe.aggregate_needs]
    rw [groups_eta ((List.foldl PPipe.aggStep
        ([], { high := [], medium := [], low := [] }) (ers.flatMap (·.needs))).2),
      hhigh, hmed, hlow]
    simp
  · simp [PPipe.aggregate_needs, hhigh, hmed, hlow]

/-- Each `genIter` iteration produces one persona and records one prompt. -/
theorem genIter_lengths (llm : Txt → Txt) (pre mid suf design : Txt) :
    ∀ n, (Gen.genIter llm pre mid suf design n).agents.length = n ∧
      (Gen.genIter llm pre mid suf design n).prompts.length = n := by
  intro n
  induction n with
  | zero => exact ⟨rfl, rfl⟩
  | succ k ih => simp [Gen.genIter, Gen.genStep, ih.1, ih.2]

/-- The persona list is prefix-stable: the first `k` personas after `n ≥ k`
iterations are exactly the personas after `k` iterations. -/
theorem genIter_agents_take (llm : Txt → Txt) (pre mid suf design : Txt) :
    ∀ n k, k ≤ n →
      (Gen.genIter llm pre mid suf design n).agents.take k
        = (Gen.genIter llm pre mid suf design k).agents := by
  intro n
  induction n with
  | zero =>
      intro k hk
      interval_cases k
      rfl
  | succ m ih =>
      intro k hk
      rcases Nat.lt_or_ge k (m + 1) with h | h
      · have hkm : k ≤ m := Nat.lt_succ_iff.mp h
        have hlen : k ≤ (Gen.genIter llm pre mid suf design m).agents.length := by
          rw [(genIter_lengths llm pre mid suf design m).1]; exact hkm
        calc (Gen.genIter llm pre mid suf design (m + 1)).agents.take k
            = ((Gen.genIter llm pre mid suf design m).agents
                ++ [llm (Gen.formatPrompt pre mid suf design
                      (Gen.genIter llm pre mid suf design m).context_block)]).take k := by
              simp [Gen.genIter, Gen.genStep]
          _ = (Gen.genIter llm pre mid suf design m).agents.take k :=
              List.take_append_of_le_length hlen
          _ = (Gen.genIter llm pre mid suf design k).agents := ih k hkm
      · have hk1 : k = m + 1 := Nat.le_antisymm hk h
        subst hk1
        have hlen : (Gen.genIter llm pre mid suf design (m + 1)).agents.length = m + 1 :=
          (genIter_lengths llm pre mid suf design (m + 1)).1
        rw [List.take_of_length_le (by rw [hlen])]

/-- The prompt of call `k + 1` (index `k`) is the template applied to the
context block accumulated over the first `k` iterations. -/
theorem genIter_prompt_at (llm : Txt → Txt) (pre mid suf design : Txt) :
    ∀ n k, k < n →
      (Gen.genIter llm pre mid suf design n).prompts[k]?
        = some (Gen.formatPrompt pre mid suf design
            (Gen.genIter llm pre mid suf design k).context_block) := by
  intro n
  induction n with
  | zero => intro k hk; omega
  | succ m ih =>
      intro k hk
      have hplen : (Gen.genIter llm pre mid suf design m).prompts.length = m :=
        (genIter_lengths llm pre mid suf design m).2
      rcases Nat.lt_or_ge k m with h | h
      · have : (Gen.genIter llm pre mid suf design (m + 1)).prompts
            = (Gen.genIter llm pre mid suf design m).prompts
              ++ [Gen.formatPrompt pre mid suf design
                    (Gen.genIter llm pre mid suf design m).context_block] := by
          simp [Gen.genIter, Gen.genStep]
        rw [this, List.getElem?_append_left (by rw [hplen]; exact h)]
        exact ih k h
      · have hkm : k = m := by omega
        subst hkm
        have hsucc : (Gen.genIter llm pre mid suf design (k + 1)).prompts
            = (Gen.genIter llm pre mid suf design k).prompts
              ++ [Gen.formatPrompt pre mid suf design
                    (Gen.genIter llm pre mid suf design k).context_block] := by
          simp [Gen.genIter, Gen.genStep]
        rw [hsucc, List.getElem?_append_right (by rw [hplen])]
        simp [hplen]

/-- Ordered containment survives prepending text. -/
theorem containsInOrder_prepend (t : Txt) :
    ∀ (ps : List Txt) (s : Txt), Gen.containsInOrder ps s →
      Gen.containsInOrder ps (t ++ s) := by
  intro ps
  cases ps with
  | nil => intro s _; trivial
  | cons p ps =>
      intro s h
      obtain ⟨a, b, hab, hrest⟩ := h
      exact ⟨t ++ a, b, by rw [hab]; simp, hrest⟩

/-- Ordered containment survives appending text. -/
theorem containsInOrder_append (t : Txt) :
    ∀ (ps : List Txt) (s : Txt), Gen.containsInOrder ps s →
      Gen.containsInOrder ps (s ++ t) := by
  intro ps
  induction ps with
  | nil => intro s _; trivial
  | cons p rest ih =>
      intro s h
      obtain ⟨a, b, hab, hrest⟩ := h
      exact ⟨a, b ++ t, by rw [hab]; simp, ih b hrest⟩

/-- Appending `m ++ p` to the text lets it contain one more string `p`
after all of `ps`. -/
theorem containsInOrder_snoc (m p : Txt) :
    ∀ (ps : List Txt) (s : Txt), Gen.containsInOrder ps s →
      Gen.containsInOrder (ps ++ [p]) (s ++ m ++ p) := by
  intro ps
  induction ps with
  | nil =>
      intro s _
      exact ⟨s ++ m, [], by simp, trivial⟩
  | cons q rest ih =>
      intro s h
      obtain ⟨a, b, hab, hrest⟩ := h
      refine ⟨a, b ++ m ++ p, by rw [hab]; simp, ih b hrest⟩

/-- The generation invariant: after `k` iterations the context block
contains all `k` personas generated so far, whole and in generation
order. -/
theorem genIter_context_contains (llm : Txt → Txt) (pre mid suf design : Txt) :
    ∀ k, Gen.containsInOrder (Gen.genIter llm pre mid suf design k).agents
      (Gen.genIter llm pre mid suf design k).context_block := by
  intro k
  induction k with
  | zero => trivial
  | succ m ih =>
      have := containsInOrder_snoc Gen.sepBlock
        (llm (Gen.formatPrompt pre mid suf design
          (Gen.genIter llm pre mid suf design m).context_block))
        (Gen.genIter llm pre mid suf design m).agents
        (Gen.genIter llm pre mid suf design m).context_block ih
      simpa [Gen.genIter, Gen.genStep] using this

/-- Each iteration strictly grows the context block. -/
theorem genIter_context_grows (llm : Txt → Txt) (pre mid suf design : Txt) (k : Nat) :
    (Gen.genIter llm pre mid suf design k).context_block.length
      < (Gen.genIter llm pre mid suf design (k + 1)).context_block.length := by
  simp [Gen.genIter, Gen.genStep, Gen.sepBlock]

/-- Claim C1 — diversity-preserving generation: for every `n` and every call
`i` with `1 ≤ i ≤ n`, the prompt supplied to the `i`-th persona-generation
call is the template applied to the accumulated context block, that prompt
contains the full text of personas `1..i-1`, whole and in generation
order, and the context block supplied to call `i+1` is strictly larger
than the one supplied to call `i` (`generator.py` lines 55–95, template
modelled from the spec). -/
theorem C1_diversity_order (llm : Txt → Txt) (pre mid suf design : Txt) (n i : Nat)
    (h1 : 1 ≤ i) (h2 : i ≤ n) :
    (Gen.genIter llm pre mid suf design n).prompts[i - 1]?
        = some (Gen.formatPrompt pre mid suf design
            (Gen.genIter llm pre mid suf design (i - 1)).context_block) ∧
    Gen.containsInOrder
        ((Gen.generate_agents llm pre mid suf design n).take (i - 1))
        (Gen.formatPrompt pre mid suf design
          (Gen.genIter llm pre mid suf design (i - 1)).context_block) ∧
    (Gen.genIter llm pre mid suf design (i - 1)).context_block.length
      < (Gen.genIter llm pre mid suf design i).context_block.length := by
  have hlt : i - 1 < n := by omega
  refine ⟨genIter_prompt_at llm pre mid suf design n (i - 1) hlt, ?_, ?_⟩
  · have htake : (Gen.generate_agents llm pre mid suf design n).take (i - 1)
        = (Gen.genIter llm pre mid suf design (i - 1)).agents :=
      genIter_agents_take llm pre mid suf design n (i - 1) (by omega)
    rw [htake]
    have hcont := genIter_context_contains llm pre mid suf design (i - 1)
    unfold Gen.formatPrompt
    have h₁ := containsInOrder_prepend (pre ++ design ++ mid) _ _ hcont
    have h₂ := containsInOrder_append suf _ _ h₁
    simpa [List.append_assoc] using h₂
  · have := genIter_context_grows llm pre mid suf design (i - 1)
    have hi : i - 1 + 1 = i := by omega
    rwa [hi] at this

theorem C1_diversity_order_witness :
    1 ≤ 2 ∧ 2 ≤ 3 ∧
    Gen.containsInOrder
      ((Gen.generate_agents (fun p => 'P' :: p.take 0) [] [] [] [] 3).take 1)
      (Gen.formatPrompt [] [] [] []
        (Gen.genIter (fun p => 'P' :: p.take 0) [] [] [] [] 1).context_block) :=
  ⟨by decide, by decide,
    (C1_diversity_order (fun p => 'P' :: p.take 0) [] [] [] [] 3 2
      (by decide) (by decide)).2.1⟩

/-- The re-sorted result list is sorted by agent id. -/
theorem sortResults_sorted (rs : List PPipe.AgentResult) :
    (PPipe.sortResults rs).Pairwise (fun a b => a.agent_id ≤ b.agent_id) := by
  unfold PPipe.sortResults
  refine List.Pairwise.imp ?_ (List.sorted_mergeSort ?_ ?_ rs)
  · exact fun hab => of_decide_eq_true hab
  · intro a b c h1 h2
    simp only [decide_eq_true_eq] at *
    omega
  · intro a b
    simp only [Bool.or_eq_true, decide_eq_true_eq]
    omega

/-- The re-sorted result list is a permutation of the collected one. -/
theorem sortResults_perm (rs : List PPipe.AgentResult) :
    (PPipe.sortResults rs).Perm rs :=
  List.mergeSort_perm rs _

/-- Two id-sorted permutations of each other with pairwise-distinct agent
ids are equal: the sorted output is unique. -/
theorem sorted_nodup_perm_eq :
    ∀ {l₁ l₂ : List PPipe.AgentResult}, l₁.Perm l₂ →
      l₁.Pairwise (fun a b => a.agent_id ≤ b.agent_id) →
      l₂.Pairwise (fun a b => a.agent_id ≤ b.agent_id) →
      (l₁.map (·.agent_id)).Nodup → l₁ = l₂ := by
  intro l₁
  induction l₁ with
  | nil =>
      intro l₂ hperm _ _ _
      exact (hperm.symm.eq_nil).symm
  | cons a t₁ ih =>
      intro l₂ hperm hs₁ hs₂ hnd
      cases l₂ with
      | nil => exact absurd hperm.eq_nil (by simp)
      | cons b t₂ =>
          by_cases hab : a = b
          · subst hab
            have htail : t₁.Perm t₂ := hperm.cons_inv
            have := ih htail (List.Pairwise.of_cons hs₁) (List.Pairwise.of_cons hs₂)
              (by simpa using (List.nodup_cons.mp (by simpa using hnd)).2)
            rw [this]
          · exfalso
            have hamem : a ∈ b :: t₂ := hperm.subset (List.mem_cons_self a t₁)
            have hat₂ : a ∈ t₂ := by
              rcases List.mem_cons.mp hamem with h | h
              · exact absurd h hab
              · exact h
            have hbmem : b ∈ a :: t₁ := hperm.symm.subset (List.mem_cons_self b t₂)
            have hbt₁ : b ∈ t₁ := by
              rcases List.mem_cons.mp hbmem with h | h
              · exact absurd h.symm hab
              · exact h
            have h₁ : a.agent_id ≤ b.agent_id := (List.pairwise_cons.mp hs₁).1 b hbt₁
            have h₂ : b.agent_id ≤ a.agent_id := (List.pairwise_cons.mp hs₂).1 a hat₂
            have hid : a.agent_id = b.agent_id := Nat.le_antisymm h₁ h₂
            have hnd₂ : ((b :: t₂).map (·.agent_id)).Nodup :=
              (hperm.map (·.agent_id)).nodup_iff.mp hnd
            have : b.agent_id ∉ t₂.map (·.agent_id) :=
              (List.nodup_cons.mp (by simpa using hnd₂)).1
            exact this (by rw [← hid]; exact List.mem_map_of_mem _ hat₂)

/-- The experience list exposed by the parallel run, unfolded. -/
theorem run_parallel_experiences (proc : Nat → PPipe.AgentResult)
    (extract : PPipe.InterviewRec → PPipe.ExtractionResult) (order : List Nat) :
    (PPipe.run_parallel proc extract order).experiences
      = PPipe.buildExperiences (PPipe.sortResults (order.map proc)) := rfl

/-- The interview list exposed by the parallel run, unfolded. -/
theorem run_parallel_interviews (proc : Nat → PPipe.AgentResult)
    (extract : PPipe.InterviewRec → PPipe.ExtractionResult) (order : List Nat) :
    (PPipe.run_parallel proc extract order).interviews
      = PPipe.buildInterviews (PPipe.sortResults (order.map proc)) := rfl

/-- With each unit result carrying its own agent id and a duplicate-free
id set, the sorted result list is the same for every completion order. -/
theorem sortResults_order_invariant (proc : Nat → PPipe.AgentResult)
    (order order' : List Nat)
    (hid : ∀ i, (proc i).agent_id = i) (hnd : order.Nodup)
    (hperm : order.Perm order') :
    PPipe.sortResults (order.map proc) = PPipe.sortResults (order'.map proc) := by
  have hids : (order.map proc).map (·.agent_id) = order := by
    rw [List.map_map]
    exact List.map_congr_left (fun i _ => hid i) |>.trans (List.map_id order)
  apply sorted_nodup_perm_eq
  · exact (sortResults_perm (order.map proc)).trans
      ((hperm.map proc).trans (sortResults_perm (order'.map proc)).symm)
  · exact sortResults_sorted _
  · exact sortResults_sorted _
  · have : ((order.map proc).map (·.agent_id)).Nodup := by rw [hids]; exact hnd
    exact ((sortResults_perm (order.map proc)).map (·.agent_id)).nodup_iff.mpr this

/-- Claim C2 — ordering invariant of the parallel strategy: for every
completion order of the per-persona units, the exposed experience and
interview lists are sorted by agent id ascending, and they are identical
across completion orders — the output ordering is deterministic and
independent of scheduling (`pipeline_parallel.py` lines 325–353). -/
theorem C2_parallel_output_ordering (proc : Nat → PPipe.AgentResult)
    (extract : PPipe.InterviewRec → PPipe.ExtractionResult)
    (order order' : List Nat)
    (hid : ∀ i, (proc i).agent_id = i) (hnd : order.Nodup)
    (hperm : order.Perm order') :
    ((PPipe.run_parallel proc extract order).experiences.map
        (·.agent_id)).Pairwise (· ≤ ·) ∧
    ((PPipe.run_parallel proc extract order).interviews.map
        (·.agent_id)).Pairwise (· ≤ ·) ∧
    (PPipe.run_parallel proc extract order).experiences
      = (PPipe.run_parallel proc extract order').experiences ∧
    (PPipe.run_parallel proc extract order).interviews
      = (PPipe.run_parallel proc extract order').interviews := by
  have hsorted := sortResults_sorted (order.map proc)
  have hfiltered := hsorted.filter (fun r => r.success)
  have hinv := sortResults_order_invariant proc order order' hid hnd hperm
  refine ⟨?_, ?_, ?_, ?_⟩
  · rw [run_parallel_experiences]
    unfold PPipe.buildExperiences
    rw [List.map_map]
    exact (List.pairwise_map).mpr (hfiltered.imp (fun h => h))
  · rw [run_parallel_interviews]
    unfold PPipe.buildInterviews
    rw [List.map_map]
    exact (List.pairwise_map).mpr (hfiltered.imp (fun h => h))
  · rw [run_parallel_experiences, run_parallel_experiences, hinv]
  · rw [run_parallel_interviews, run_parallel_interviews, hinv]

theorem C2_parallel_output_ordering_witness :
    (∀ i, (PPipe.okProc i).agent_id = i) ∧ ([2, 1] : List Nat).Nodup ∧
    ([2, 1] : List Nat).Perm [1, 2] ∧
    (PPipe.run_parallel PPipe.okProc PPipe.noExtract [2, 1]).experiences
      = (PPipe.run_parallel PPipe.okProc PPipe.noExtract [1, 2]).experiences :=
  ⟨fun _ => rfl, by decide, by decide,
    (C2_parallel_output_ordering PPipe.okProc PPipe.noExtract [2, 1] [1, 2]
      (fun _ => rfl) (by decide) (by decide)).2.2.1⟩

/-- With an always-succeeding ask function the interview loop completes. -/
theorem askLoop_ok (ask : String → String → String → String → Except String String)
    (hask : ∀ a ex q p, ∃ ans, ask a ex q p = Except.ok ans)
    (agent experience product : String) :
    ∀ (qs : List String) (acc : List PPipe.QA),
      ∃ qa, PPipe.askLoop ask agent experience product qs acc = Except.ok qa := by
  intro qs
  induction qs with
  | nil => intro acc; exact ⟨acc, rfl⟩
  | cons q rest ih =>
      intro acc
      obtain ⟨ans, hans⟩ := hask agent experience q product
      obtain ⟨qa, hqa⟩ := ih (acc ++ [⟨q, ans⟩])
      exact ⟨qa, by simp [PPipe.askLoop, hans, hqa]⟩

/-- Claim C3 — failure isolation in the parallel strategy: when the
experience-simulation call raises for exactly persona 3 of 5 (and every
other backend call succeeds), that unit's result is captured as
`success = false` carrying the error message, all five sibling units still
produce a result, the run's terminal status is `completed_with_errors`,
the failed-units list is exactly `[3]` for every completion order, and the
interview list holds exactly the 4 successful records, ids `[1, 2, 4, 5]`
(`pipeline_parallel.py` lines 80–194 and 290–363). -/
theorem C3_failure_isolation
    (simulate : String → String → Nat → Except String String)
    (ask : String → String → String → String → Except String String)
    (questions : List String) (agents : Nat → String) (product : String)
    (extract : PPipe.InterviewRec → PPipe.ExtractionResult)
    (order : List Nat) (e : String)
    (horder : order.Perm [1, 2, 3, 4, 5])
    (hsim3 : simulate (agents 3) product 3 = Except.error e)
    (hsimok : ∀ i, i ≠ 3 → ∃ x, simulate (agents i) product i = Except.ok x)
    (hask : ∀ a ex q p, ∃ ans, ask a ex q p = Except.ok ans) :
    (PPipe.run_parallel (PPipe.procOf simulate ask questions agents product)
        extract order).status = "completed_with_errors" ∧
    (PPipe.run_parallel (PPipe.procOf simulate ask questions agents product)
        extract order).failed_agents = [3] ∧
    (PPipe.run_parallel (PPipe.procOf simulate ask questions agents product)
        extract order).interviews.length = 4 ∧
    (PPipe.run_parallel (PPipe.procOf simulate ask questions agents product)
        extract order).interviews.map (·.agent_id) = [1, 2, 4, 5] ∧
    (PPipe.run_parallel (PPipe.procOf simulate ask questions agents product)
        extract order).agent_results.length = 5 ∧
    ({ agent_id := 3, agent := agents 3, product := product, success := false,
       experience := none, interview := none,
       error := some e } : PPipe.AgentResult) ∈
      (PPipe.run_parallel (PPipe.procOf simulate ask questions agents product)
        extract order).agent_results := by
  set proc := PPipe.procOf simulate ask questions agents product with hproc
  have p3 : proc 3
      = { agent_id := 3, agent := agents 3, product := product, success := false,
          experience := none, interview := none, error := some e } := by
    simp [hproc, PPipe.procOf, PPipe.process_single_agent, hsim3]
  have psucc : ∀ i, i ≠ 3 → (proc i).success = true := by
    intro i hi
    obtain ⟨x, hx⟩ := hsimok i hi
    obtain ⟨qa, hqa⟩ := askLoop_ok ask hask (agents i) x product questions []
    simp [hproc, PPipe.procOf, PPipe.process_single_agent, hx, hqa]
  have pid : ∀ i, (proc i).agent_id = i := by
    intro i
    rw [hproc]
    unfold PPipe.procOf PPipe.process_single_agent
    rcases hs : simulate (agents i) product i with e' | x
    · rfl
    · rcases ha : PPipe.askLoop ask (agents i) x product questions [] with e' | qa <;>
        simp [hs, ha]
  have h1 : (proc 1).success = true := psucc 1 (by decide)
  have h2 : (proc 2).success = true := psucc 2 (by decide)
  have h4 : (proc 4).success = true := psucc 4 (by decide)
  have h5 : (proc 5).success = true := psucc 5 (by decide)
  have h3s : (proc 3).success = false := by rw [p3]
  have hnd : order.Nodup := horder.nodup_iff.mpr (by decide)
  have hsortEq : PPipe.sortResults (order.map proc)
      = [proc 1, proc 2, proc 3, proc 4, proc 5] := by
    apply sorted_nodup_perm_eq
    · refine (sortResults_perm _).trans ?_
      have hml : ([1, 2, 3, 4, 5] : List Nat).map proc
          = [proc 1, proc 2, proc 3, proc 4, proc 5] := rfl
      rw [← hml]
      exact horder.map proc
    · exact sortResults_sorted _
    · simp [List.pairwise_cons, pid]
    · have hids : ((order.map proc).map (·.agent_id)).Nodup := by
        rw [List.map_map]
        have hfun : order.map (fun i => (proc i).agent_id) = order :=
          (List.map_congr_left (fun i _ => pid i)).trans (List.map_id order)
        rw [show ((·.agent_id) ∘ proc) = fun i => (proc i).agent_id from rfl, hfun]
        exact hnd
      exact ((sortResults_perm (order.map proc)).map (·.agent_id)).nodup_iff.mpr hids
  have hfail : order.filter (fun i => !(proc i).success) = [3] := by
    have hcongr : order.filter (fun i => !(proc i).success)
        = order.filter (fun i => i == 3) := by
      apply List.filter_congr
      intro i _
      by_cases hi3 : i = 3
      · subst hi3; simp [h3s]
      · simp [psucc i hi3, hi3]
    rw [hcongr, List.filter_beq, horder.count_eq]
    rfl
  have hfilter5 : ([proc 1, proc 2, proc 3, proc 4, proc 5].filter (·.success))
      = [proc 1, proc 2, proc 4, proc 5] := by
    simp [List.filter_cons, h1, h2, h3s, h4, h5]
  refine ⟨?_, ?_, ?_, ?_, ?_, ?_⟩
  · have h : (PPipe.run_parallel proc extract order).status
        = if (order.filter (fun i => !(proc i).success)).isEmpty then "completed"
          else "completed_with_errors" := rfl
    rw [h, hfail]
    rfl
  · have h : (PPipe.run_parallel proc extract order).failed_agents
        = order.filter (fun i => !(proc i).success) := rfl
    rw [h, hfail]
  · rw [run_parallel_interviews, hsortEq]
    unfold PPipe.buildInterviews
    rw [hfilter5]
    rfl
  · rw [run_parallel_interviews, hsortEq]
    unfold PPipe.buildInterviews
    rw [hfilter5]
    simp [pid]
  · have h : (PPipe.run_parallel proc extract order).agent_results
        = PPipe.sortResults (order.map proc) := rfl
    rw [h, hsortEq]
    rfl
  · have h : (PPipe.run_parallel proc extract order).agent_results
        = PPipe.sortResults (order.map proc) := rfl
    rw [h, hsortEq, ← p3]
    simp

theorem C3_failure_isolation_witness :
    ([5, 4, 3, 2, 1] : List Nat).Perm [1, 2, 3, 4, 5] ∧
    PPipe.simFail3 ("agent") ("tent") 3 = Except.error ("boom") ∧
    (PPipe.run_parallel
        (PPipe.procOf PPipe.simFail3 PPipe.askOk ["q"] (fun _ => "agent") "tent")
        PPipe.noExtract [5, 4, 3, 2, 1]).failed_agents = [3] :=
  ⟨by decide, rfl,
    (C3_failure_isolation PPipe.simFail3 PPipe.askOk ["q"] (fun _ => "agent") "tent"
      PPipe.noExtract [5, 4, 3, 2, 1] "boom" (by decide) rfl
      (fun i hi => ⟨"exp", by simp [PPipe.simFail3, hi]⟩)
      (fun _ _ _ _ => ⟨"ans", rfl⟩)).2.1⟩
